import Mathlib

/-
Shallow embedding of src/json_untruncate.py.

The Python module repairs truncated JSON text with a single forward scan
driven by a stack of syntactic contexts, an optional respawn checkpoint
(position, stack length, reason), and a final synthesis pass that appends
closing text for every context left open.

One detail of the Python source matters throughout: the scanning loop is
written as a for-loop over range(len(json)), and the helper
dont_consume_character merely decrements the local loop variable.  Python
reassigns the loop variable from the range at the top of every iteration,
so the decrement is dead: the character that terminates a number or a
true/false/null literal is consumed by the popped context and is never
re-dispatched to the context below.  Nothing else in the loop body reads
the variable after the decrement, so the faithful embedding simply omits
the dead write; the loop body is otherwise translated branch by branch.
-/

namespace JsonUntruncate

/-- Syntactic contexts of the scanner, one constructor per member of the
Python ContextType enum. -/
inductive ContextType where
  | topLevel
  | string
  | stringEscaped
  | stringUnicode
  | number
  | numberNeedsDigit
  | numberNeedsExponent
  | true
  | false
  | null
  | arrayNeedsValue
  | arrayNeedsComma
  | objectNeedsKey
  | objectNeedsColon
  | objectNeedsValue
  | objectNeedsComma
deriving DecidableEq

/-- Reasons attached to a pending respawn checkpoint, mirroring the Python
RespawnReason enum. -/
inductive RespawnReason where
  | stringEscape
  | collectionItem
deriving DecidableEq

/-- The four whitespace characters recognised by the Python is_whitespace. -/
def is_whitespace (char : Char) : Bool :=
  char = ' ' || char = '\r' || char = '\n' || char = '\t'

/-- Python str.rfind of a single character over the whole string: the
highest index holding the character, or -1 when it is absent. -/
def rfind (cs : List Char) (c : Char) : Int :=
  match (cs.enum.filter (fun p => p.2 == c)).getLast? with
  | some p => (p.1 : Int)
  | none => -1

/-- Python str.rfind with an end bound: search only indices below stop. -/
def rfindBefore (cs : List Char) (c : Char) (stop : Nat) : Int :=
  rfind (cs.take stop) c

/-- Python slice w[s:] for a possibly negative integer start index. -/
def slice_from (w : List Char) (s : Int) : List Char :=
  if 0 ≤ s then w.drop s.toNat else w.drop (((w.length : Int) + s).toNat)

/-- The closure finish_word of the Python source: append the slice of the
literal word starting at len(word) - json.rfind(word[0]). -/
def finish_word (json : List Char) (word : List Char) : List Char :=
  slice_from word ((word.length : Int) - rfind json (word.headD ' '))

/-- The mutable state of one run: the context stack (top element first,
the reverse of the Python bottom-first list) and the three respawn
variables of the Python closures. -/
structure ScanState where
  context_stack : List ContextType
  respawn_position : Option Nat
  respawn_stack_length : Option Nat
  respawn_reason : Option RespawnReason
deriving DecidableEq

/-- The closure set_respawn: record position, stack length and reason,
but only when no checkpoint is currently pending. -/
def set_respawn (position : Nat) (reason : RespawnReason) (s : ScanState) : ScanState :=
  if s.respawn_position = none then
    { s with respawn_position := some position,
             respawn_stack_length := some s.context_stack.length,
             respawn_reason := some reason }
  else s

/-- The closure clear_respawn: discard the checkpoint exactly when the
supplied reason equals the pending reason. -/
def clear_respawn (reason : RespawnReason) (s : ScanState) : ScanState :=
  if s.respawn_reason = some reason then
    { s with respawn_position := none, respawn_stack_length := none, respawn_reason := none }
  else s

/-- The closure start_any: push the context opened by a value-start
character, ignoring any other character. -/
def start_any (char : Char) (stack : List ContextType) : List ContextType :=
  if '0' ≤ char ∧ char ≤ '9' then ContextType.number :: stack
  else if char = '"' then ContextType.string :: stack
  else if char = '-' then ContextType.numberNeedsDigit :: stack
  else if char = 't' then ContextType.true :: stack
  else if char = 'f' then ContextType.false :: stack
  else if char = 'n' then ContextType.null :: stack
  else if char = '[' then ContextType.arrayNeedsValue :: stack
  else if char = '\x7b' then ContextType.objectNeedsKey :: stack
  else stack

/-- One iteration of the Python scanning loop: dispatch the character at
the given position to the context on top of the stack.  The pair pc is
the loop position and the character there. -/
def scan_step (json : List Char) (s : ScanState) (pc : Nat × Char) : ScanState :=
  match s.context_stack with
  | [] => s
  | current :: rest =>
    match current with
    | ContextType.topLevel =>
        { s with context_stack := start_any pc.2 (ContextType.topLevel :: rest) }
    | ContextType.string =>
        if pc.2 = '"' then { s with context_stack := rest }
        else if pc.2 = '\\' then
          let s1 := set_respawn pc.1 RespawnReason.stringEscape s
          { s1 with context_stack := ContextType.stringEscaped :: ContextType.string :: rest }
        else s
    | ContextType.stringEscaped =>
        if pc.2 = 'u' then
          { s with context_stack :=
              ContextType.stringUnicode :: ContextType.stringEscaped :: rest }
        else
          let s1 := clear_respawn RespawnReason.stringEscape s
          { s1 with context_stack := rest }
    | ContextType.stringUnicode =>
        if (pc.1 : Int) - rfindBefore json 'u' pc.1 = 4 then
          let s1 := clear_respawn RespawnReason.stringEscape s
          { s1 with context_stack := rest }
        else s
    | ContextType.number =>
        if pc.2 = '.' then { s with context_stack := ContextType.numberNeedsDigit :: rest }
        else if pc.2 = 'e' ∨ pc.2 = 'E' then
          { s with context_stack := ContextType.numberNeedsExponent :: rest }
        else if ¬ ('0' ≤ pc.2 ∧ pc.2 ≤ '9') then
          { s with context_stack := rest }
        else s
    | ContextType.numberNeedsDigit =>
        { s with context_stack := ContextType.number :: rest }
    | ContextType.numberNeedsExponent =>
        if pc.2 = '+' ∨ pc.2 = '-' then
          { s with context_stack := ContextType.numberNeedsDigit :: rest }
        else { s with context_stack := ContextType.number :: rest }
    | ContextType.true =>
        if ¬ ('a' ≤ pc.2 ∧ pc.2 ≤ 'z') then { s with context_stack := rest } else s
    | ContextType.false =>
        if ¬ ('a' ≤ pc.2 ∧ pc.2 ≤ 'z') then { s with context_stack := rest } else s
    | ContextType.null =>
        if ¬ ('a' ≤ pc.2 ∧ pc.2 ≤ 'z') then { s with context_stack := rest } else s
    | ContextType.arrayNeedsValue =>
        if pc.2 = ']' then { s with context_stack := rest }
        else if ¬ is_whitespace pc.2 then
          let s1 := clear_respawn RespawnReason.collectionItem s
          { s1 with context_stack := start_any pc.2 (ContextType.arrayNeedsComma :: rest) }
        else s
    | ContextType.arrayNeedsComma =>
        if pc.2 = ']' then { s with context_stack := rest }
        else if pc.2 = ',' then
          let s1 := set_respawn pc.1 RespawnReason.collectionItem s
          { s1 with context_stack := ContextType.arrayNeedsValue :: rest }
        else s
    | ContextType.objectNeedsKey =>
        if pc.2 = '\x7d' then { s with context_stack := rest }
        else if pc.2 = '"' then
          let s1 := set_respawn pc.1 RespawnReason.collectionItem s
          { s1 with context_stack := ContextType.string :: ContextType.objectNeedsColon :: rest }
        else s
    | ContextType.objectNeedsColon =>
        if pc.2 = ':' then { s with context_stack := ContextType.objectNeedsValue :: rest }
        else s
    | ContextType.objectNeedsValue =>
        if ¬ is_whitespace pc.2 then
          let s1 := clear_respawn RespawnReason.collectionItem s
          { s1 with context_stack := start_any pc.2 (ContextType.objectNeedsComma :: rest) }
        else s
    | ContextType.objectNeedsComma =>
        if pc.2 = '\x7d' then { s with context_stack := rest }
        else if pc.2 = ',' then
          let s1 := set_respawn pc.1 RespawnReason.collectionItem s
          { s1 with context_stack := ContextType.objectNeedsKey :: rest }
        else s

/-- The initial state of a run: the stack holds only the top-level
sentinel and no checkpoint is pending. -/
def initState : ScanState :=
  ⟨[ContextType.topLevel], none, none, none⟩

/-- The full forward pass of the Python for-loop over every index of the
input. -/
def scan (json : List Char) : ScanState :=
  json.enum.foldl (scan_step json) initState

/-- The forward pass stopped after the first k iterations; used to state
invariants that hold at every point of the scan. -/
def scanPrefix (json : List Char) (k : Nat) : ScanState :=
  (json.enum.take k).foldl (scan_step json) initState

/-- The stack truncation performed after the loop: keep the bottom
respawn_stack_length contexts when a checkpoint is pending.  The Python
slice keeps the first k elements of the bottom-first list, which is the
last k elements of the top-first list. -/
def truncated_stack (s : ScanState) : List ContextType :=
  match s.respawn_stack_length with
  | none => s.context_stack
  | some k => s.context_stack.drop (s.context_stack.length - k)

/-- The kept text: the whole input, or the input cut at the pending
checkpoint position. -/
def untruncate_kept (json : List Char) (s : ScanState) : List Char :=
  match s.respawn_position with
  | none => json
  | some p => json.take p

/-- The closing text appended for one context in the synthesis loop; none
for the contexts the Python loop silently skips. -/
def closing_fragment (json : List Char) : ContextType → Option (List Char)
  | ContextType.string => some ['"']
  | ContextType.numberNeedsDigit => some ['0']
  | ContextType.numberNeedsExponent => some ['0']
  | ContextType.true => some (finish_word json ( "true".data))
  | ContextType.false => some (finish_word json ( "false".data))
  | ContextType.null => some (finish_word json ( "null".data))
  | ContextType.arrayNeedsValue => some [']']
  | ContextType.arrayNeedsComma => some [']']
  | ContextType.objectNeedsKey => some ['\x7d']
  | ContextType.objectNeedsColon => some ['\x7d']
  | ContextType.objectNeedsValue => some ['\x7d']
  | ContextType.objectNeedsComma => some ['\x7d']
  | _ => none

/-- All closing fragments, emitted innermost context first, exactly the
order of the reversed-stack loop of the Python source. -/
def untruncate_frags (json : List Char) (s : ScanState) : List (List Char) :=
  (truncated_stack s).filterMap (closing_fragment json)

/-- The repair operation untruncate_json of the Python source: scan the
input, roll back to the checkpoint when one is pending, and append the
closing fragments. -/
def untruncate_json (json : String) : String :=
  let s := scan json.data
  String.mk (untruncate_kept json.data s ++ (untruncate_frags json.data s).flatten)

/-- Decidable digit test used by the JSON grammar checker. -/
def isDigit (c : Char) : Bool :=
  decide ('0' ≤ c ∧ c ≤ '9')

/-- Decidable hexadecimal digit test used by the JSON grammar checker. -/
def isHexDigit (c : Char) : Bool :=
  decide (('0' ≤ c ∧ c ≤ '9') ∨ ('a' ≤ c ∧ c ≤ 'f') ∨ ('A' ≤ c ∧ c ≤ 'F'))

/-- Skip the JSON whitespace characters at the front of the input. -/
def skipWs : List Char → List Char
  | [] => []
  | c :: rest => if is_whitespace c then skipWs rest else c :: rest

/-- Parse the body of a JSON string after its opening quote, returning
the input remaining after the closing quote. -/
def parseStringBody : List Char → Option (List Char)
  | [] => none
  | c :: rest =>
    if c = '"' then some rest
    else if c = '\\' then
      match rest with
      | [] => none
      | e :: rest2 =>
        if e = 'u' then
          match rest2 with
          | a :: b :: c2 :: d :: rest3 =>
            if isHexDigit a && isHexDigit b && isHexDigit c2 && isHexDigit d then
              parseStringBody rest3
            else none
          | _ => none
        else if e = '"' ∨ e = '\\' ∨ e = '/' ∨ e = 'b' ∨ e = 'f' ∨ e = 'n' ∨ e = 'r' ∨ e = 't'
        then parseStringBody rest2
        else none
    else if 32 ≤ c.toNat then parseStringBody rest
    else none

/-- Parse an optional fraction part of a JSON number. -/
def parseFrac (cs : List Char) : Option (List Char) :=
  match cs with
  | '.' :: r => if (r.takeWhile isDigit).isEmpty then none else some (r.dropWhile isDigit)
  | _ => some cs

/-- Parse an optional exponent part of a JSON number. -/
def parseExp (cs : List Char) : Option (List Char) :=
  match cs with
  | [] => some []
  | c :: r =>
    if c = 'e' ∨ c = 'E' then
      let r2 := match r with
        | [] => ([] : List Char)
        | sg :: r3 => if sg = '+' ∨ sg = '-' then r3 else sg :: r3
      if (r2.takeWhile isDigit).isEmpty then none else some (r2.dropWhile isDigit)
    else some (c :: r)

/-- Parse a JSON number per the RFC 8259 grammar. -/
def parseNumber (cs : List Char) : Option (List Char) :=
  let cs1 := match cs with
    | '-' :: r => r
    | _ => cs
  match cs1 with
  | [] => none
  | '0' :: r => (parseFrac r).bind parseExp
  | c :: r =>
    if '1' ≤ c ∧ c ≤ '9' then (parseFrac (r.dropWhile isDigit)).bind parseExp
    else none

mutual

/-- Parse one JSON value, fuelled to bound the nesting recursion. -/
def parseValue : Nat → List Char → Option (List Char)
  | 0, _ => none
  | fuel + 1, cs =>
    match skipWs cs with
    | '"' :: r => parseStringBody r
    | '\x7b' :: r =>
      match skipWs r with
      | '\x7d' :: r2 => some r2
      | r1 => parseMembers fuel r1
    | '[' :: r =>
      match skipWs r with
      | ']' :: r2 => some r2
      | r1 => parseItems fuel r1
    | 't' :: 'r' :: 'u' :: 'e' :: r => some r
    | 'f' :: 'a' :: 'l' :: 's' :: 'e' :: r => some r
    | 'n' :: 'u' :: 'l' :: 'l' :: r => some r
    | cs1 => parseNumber cs1

/-- Parse the comma-separated items of a nonempty JSON array up to the
closing bracket. -/
def parseItems : Nat → List Char → Option (List Char)
  | 0, _ => none
  | fuel + 1, cs =>
    (parseValue fuel cs).bind fun r =>
      match skipWs r with
      | ',' :: r2 => parseItems fuel r2
      | ']' :: r2 => some r2
      | _ => none

/-- Parse the comma-separated members of a nonempty JSON object up to the
closing brace. -/
def parseMembers : Nat → List Char → Option (List Char)
  | 0, _ => none
  | fuel + 1, cs =>
    match skipWs cs with
    | '"' :: r =>
      (parseStringBody r).bind fun r1 =>
        match skipWs r1 with
        | ':' :: r2 =>
          (parseValue fuel r2).bind fun r3 =>
            match skipWs r3 with
            | ',' :: r4 => parseMembers fuel r4
            | '\x7d' :: r4 => some r4
            | _ => none
        | _ => none
    | _ => none

end

/-- A string is syntactically parseable as a JSON document when one value
parses and only whitespace remains. -/
def jsonValid (s : String) : Bool :=
  match parseValue (s.length + 1) s.data with
  | some rest => (skipWs rest).isEmpty
  | none => Bool.false

/-- A stack is well formed when it is nonempty and its bottom element is
the top-level sentinel; this is exactly what makes every stack access of
the Python loop stay in bounds. -/
def lastTop (l : List ContextType) : Prop :=
  l ≠ [] ∧ l.getLast? = some ContextType.topLevel

/-- The three respawn variables are synchronized: they are all none or
all some, so the checkpoint behaves as a single optional record. -/
def respawnSynced (s : ScanState) : Prop :=
  s.respawn_position.isSome = s.respawn_reason.isSome
  ∧ s.respawn_position.isSome = s.respawn_stack_length.isSome

lemma start_any_shape (char : Char) (st : List ContextType) :
    start_any char st = st ∨ ∃ c, start_any char st = c :: st := by
  unfold start_any
  split_ifs <;> first | exact Or.inr ⟨_, rfl⟩ | exact Or.inl rfl

lemma lastTop_cons (c : ContextType) (l : List ContextType) (h : lastTop l) :
    lastTop (c :: l) := by
  obtain ⟨hne, hl⟩ := h
  cases l with
  | nil => exact absurd rfl hne
  | cons x xs =>
    refine ⟨by simp, ?_⟩
    rw [List.getLast?_cons_cons]
    exact hl

lemma lastTop_start_any (char : Char) (l : List ContextType) (h : lastTop l) :
    lastTop (start_any char l) := by
  rcases start_any_shape char l with he | ⟨c, he⟩
  · rw [he]; exact h
  · rw [he]; exact lastTop_cons c l h

lemma lastTop_pop (c : ContextType) (l : List ContextType)
    (hc : c ≠ ContextType.topLevel) (h : lastTop (c :: l)) : lastTop l := by
  cases l with
  | nil =>
    obtain ⟨-, hl⟩ := h
    simp only [List.getLast?_singleton, Option.some.injEq] at hl
    exact absurd hl hc
  | cons x xs =>
    refine ⟨by simp, ?_⟩
    have h2 := h.2
    rwa [List.getLast?_cons_cons] at h2

lemma lastTop_replace (a b : ContextType) (l : List ContextType)
    (ha : a ≠ ContextType.topLevel) (h : lastTop (a :: l)) : lastTop (b :: l) :=
  lastTop_cons b l (lastTop_pop a l ha h)

lemma scan_step_lastTop (json : List Char) (pc : Nat × Char) (s : ScanState)
    (h : lastTop s.context_stack) : lastTop (scan_step json s pc).context_stack := by
  obtain ⟨stack, rp, rsl, rr⟩ := s
  cases stack with
  | nil => exact absurd rfl h.1
  | cons current rest =>
    cases current <;>
      simp only [scan_step] <;>
      (try split_ifs) <;>
      first
      | exact lastTop_start_any _ _ h
      | exact lastTop_start_any _ _ (lastTop_replace _ _ _ (by decide) h)
      | exact lastTop_cons _ _ (lastTop_replace _ _ _ (by decide) h)
      | exact lastTop_cons _ _ h
      | exact lastTop_pop _ _ (by decide) h
      | exact h
      | exact lastTop_replace _ _ _ (by decide) h

lemma respawnSynced_of_fields (s t : ScanState)
    (hp : t.respawn_position = s.respawn_position)
    (hsl : t.respawn_stack_length = s.respawn_stack_length)
    (hr : t.respawn_reason = s.respawn_reason)
    (h : respawnSynced s) : respawnSynced t := by
  unfold respawnSynced at h ⊢
  rw [hp, hsl, hr]
  exact h

lemma respawnSynced_set (position : Nat) (reason : RespawnReason) (s : ScanState)
    (h : respawnSynced s) : respawnSynced (set_respawn position reason s) := by
  unfold set_respawn
  split_ifs
  · exact ⟨rfl, rfl⟩
  · exact h

lemma respawnSynced_clear (reason : RespawnReason) (s : ScanState)
    (h : respawnSynced s) : respawnSynced (clear_respawn reason s) := by
  unfold clear_respawn
  split_ifs
  · exact ⟨rfl, rfl⟩
  · exact h

lemma scan_step_respawnSynced (json : List Char) (pc : Nat × Char) (s : ScanState)
    (h : respawnSynced s) : respawnSynced (scan_step json s pc) := by
  obtain ⟨stack, rp, rsl, rr⟩ := s
  cases stack with
  | nil => exact h
  | cons current rest =>
    cases current <;>
      simp only [scan_step] <;>
      (try split_ifs) <;>
      first
      | exact h
      | exact respawnSynced_of_fields _ _ rfl rfl rfl h
      | exact respawnSynced_of_fields _ _ rfl rfl rfl (respawnSynced_set _ _ _ h)
      | exact respawnSynced_of_fields _ _ rfl rfl rfl (respawnSynced_clear _ _ h)

lemma foldl_lastTop (json : List Char) (l : List (Nat × Char)) (s : ScanState)
    (h : lastTop s.context_stack) :
    lastTop ((l.foldl (scan_step json) s).context_stack) := by
  induction l generalizing s with
  | nil => exact h
  | cons pc t ih => exact ih _ (scan_step_lastTop json pc s h)

lemma foldl_respawnSynced (json : List Char) (l : List (Nat × Char)) (s : ScanState)
    (h : respawnSynced s) : respawnSynced (l.foldl (scan_step json) s) := by
  induction l generalizing s with
  | nil => exact h
  | cons pc t ih => exact ih _ (scan_step_respawnSynced json pc s h)

lemma slice_from_suffix (w : List Char) (s : Int) : slice_from w s <:+ w := by
  unfold slice_from
  split_ifs <;> exact ⟨w.take _, List.take_append_drop _ _⟩

lemma finish_word_suffix (json w : List Char) : finish_word json w <:+ w :=
  slice_from_suffix _ _
/-- C1: the claim says every output of untruncate_json is syntactically
parseable as JSON.  The code violates it: on the already valid input [1]
the closing bracket is consumed by the popped Number context instead of
being re-offered to the array context, so an extra bracket is appended
and the output [1]] is not parseable. -/
theorem claim1_wellformedness_fails :
    untruncate_json "[1]" = "[1]]" ∧ jsonValid (untruncate_json "[1]") = false := by
  decide

/-- C2: the claim says already valid JSON is returned unchanged.  The
empty-input half holds, but on the valid document of the claim's own
example the code appends a spurious closing brace. -/
theorem claim2_not_noop_on_valid :
    untruncate_json "" = ""
    ∧ jsonValid "\x7b\"a\":1\x7d" = true
    ∧ untruncate_json "\x7b\"a\":1\x7d" = "\x7b\"a\":1\x7d\x7d" := by
  decide

/-- C3: the claim says untruncate_json is idempotent.  It is not: the
input [1 is repaired to [1] once, and repairing [1] again yields [1]]. -/
theorem claim3_not_idempotent :
    untruncate_json (untruncate_json "[1") ≠ untruncate_json "[1" := by
  decide

/-- C4: the claim says a pop with reprocessing re-dispatches the current
character to the new top context.  In the code the decrement of the
for-loop variable is dead, so on [1] the closing bracket is consumed by
the Number context: the array context stays on the final stack and the
output gains an unmatched bracket, which could not happen if the bracket
were re-dispatched. -/
theorem claim4_character_consumed_not_redispatched :
    (scan ( "[1]".data)).context_stack
        = [ContextType.arrayNeedsComma, ContextType.topLevel]
    ∧ untruncate_json "[1]" = "[1]]" := by
  decide

/-- C5: the claim says the synthesizer appends exactly the missing suffix
of a partially written literal.  The claim's own example works, but on
the input ending in tr the code appends only the single character e,
producing the invalid text tre instead of true. -/
theorem claim5_literal_suffix_wrong :
    untruncate_json "\x7b\"a\":tru" = "\x7b\"a\":true\x7d"
    ∧ untruncate_json "\x7b\"a\":tr" = "\x7b\"a\":tre\x7d"
    ∧ jsonValid "\x7b\"a\":tre\x7d" = false := by
  decide

/-- C6, counterexample: the claim predicts 0 for a truncated bare minus,
but the code keeps the minus sign and appends a digit. -/
theorem claim6_counterexample :
    untruncate_json "\x7b\"x\":-" ≠ "\x7b\"x\":0\x7d" := by
  decide

/-- C6, amended: a trailing minus is completed to -0 (the kept prefix is
never modified, only a digit is appended) and a trailing dot to .0. -/
theorem claim6_numeric_completion :
    untruncate_json "\x7b\"x\":-" = "\x7b\"x\":-0\x7d"
    ∧ untruncate_json "[1." = "[1.0]" := by
  decide

/-- C7: a trailing comma with no following item is rolled back to the
checkpoint and dropped, not emitted. -/
theorem claim7_trailing_comma_dropped :
    untruncate_json "[1,2," = "[1,2]" := by
  decide

/-- C8: the checkpoint discipline: setting a checkpoint while one is
pending is a no-op, clearing succeeds exactly when the supplied reason
matches the pending one, and throughout every run the three respawn
variables behave as one optional record, so at most one checkpoint is
pending at any time. -/
theorem claim8_checkpoint_discipline (s : ScanState) (position : Nat)
    (r r' : RespawnReason) :
    (s.respawn_position ≠ none → set_respawn position r s = s)
    ∧ (s.respawn_reason = some r' → clear_respawn r' s =
        { s with respawn_position := none, respawn_stack_length := none,
                 respawn_reason := none })
    ∧ (s.respawn_reason ≠ some r' → clear_respawn r' s = s)
    ∧ (∀ json : List Char, respawnSynced (scan json)) := by
  refine ⟨?_, ?_, ?_, ?_⟩
  · intro h
    unfold set_respawn
    rw [if_neg h]
  · intro h
    unfold clear_respawn
    rw [if_pos h]
  · intro h
    unfold clear_respawn
    rw [if_neg h]
  · intro json
    exact foldl_respawnSynced json json.enum initState ⟨rfl, rfl⟩

/-- Witness for the C8 theorem at a concrete state with a pending
string-escape checkpoint. -/
theorem claim8_checkpoint_discipline_witness :
    set_respawn 7 RespawnReason.collectionItem
        ⟨[ContextType.topLevel], some 1, some 1, some RespawnReason.stringEscape⟩
      = ⟨[ContextType.topLevel], some 1, some 1, some RespawnReason.stringEscape⟩
    ∧ clear_respawn RespawnReason.stringEscape
        ⟨[ContextType.topLevel], some 1, some 1, some RespawnReason.stringEscape⟩
      = ⟨[ContextType.topLevel], none, none, none⟩
    ∧ clear_respawn RespawnReason.collectionItem
        ⟨[ContextType.topLevel], some 1, some 1, some RespawnReason.stringEscape⟩
      = ⟨[ContextType.topLevel], some 1, some 1, some RespawnReason.stringEscape⟩ := by
  have h1 := claim8_checkpoint_discipline
      ⟨[ContextType.topLevel], some 1, some 1, some RespawnReason.stringEscape⟩ 7
      RespawnReason.collectionItem RespawnReason.stringEscape
  have h2 := claim8_checkpoint_discipline
      ⟨[ContextType.topLevel], some 1, some 1, some RespawnReason.stringEscape⟩ 7
      RespawnReason.collectionItem RespawnReason.collectionItem
  exact ⟨h1.1 (by decide), h1.2.1 (by decide), h2.2.2.1 (by decide)⟩

/-- C9: untruncate_json is total over arbitrary input.  After any number
of scan iterations the context stack is nonempty with the top-level
sentinel at the bottom, so every peek, replace and pop of the Python
loop stays in bounds, and the full scan is the prefix scan at the input
length. -/
theorem claim9_scan_total (input : String) (k : Nat) :
    (scanPrefix input.data k).context_stack ≠ []
    ∧ (scanPrefix input.data k).context_stack.getLast? = some ContextType.topLevel
    ∧ scan input.data = scanPrefix input.data input.data.length := by
  have h := foldl_lastTop input.data (input.data.enum.take k) initState
      ⟨by simp [initState], rfl⟩
  refine ⟨h.1, h.2, ?_⟩
  unfold scan scanPrefix
  rw [show input.data.length = input.data.enum.length by rw [List.enum_length],
      List.take_length]

/-- C10: every output is a prefix of the input (the whole input, or the
input cut at the checkpoint) followed only by closing fragments, each a
quote, a zero digit, a closing bracket, a closing brace, or a trailing
slice of one of the three literal words. -/
theorem claim10_output_shape (input : String) :
    ∃ kept frags, untruncate_json input = String.mk (kept ++ List.flatten frags)
      ∧ kept <+: input.data
      ∧ ∀ f ∈ frags,
          f = ['"'] ∨ f = ['0'] ∨ f = [']'] ∨ f = ['\x7d']
          ∨ f <:+ ( "true".data) ∨ f <:+ ( "false".data) ∨ f <:+ ( "null".data) := by
  refine ⟨untruncate_kept input.data (scan input.data),
          untruncate_frags input.data (scan input.data), rfl, ?_, ?_⟩
  · unfold untruncate_kept
    cases h : (scan input.data).respawn_position with
    | none => exact List.prefix_refl _
    | some p => exact List.take_prefix p input.data
  · intro f hf
    unfold untruncate_frags at hf
    obtain ⟨c, -, hcf⟩ := List.mem_filterMap.mp hf
    cases c <;>
      simp only [closing_fragment] at hcf <;>
      first
      | exact Option.noConfusion hcf
      | (injection hcf with hx
         subst hx
         first
         | exact Or.inl rfl
         | exact Or.inr (Or.inl rfl)
         | exact Or.inr (Or.inr (Or.inl rfl))
         | exact Or.inr (Or.inr (Or.inr (Or.inl rfl)))
         | exact Or.inr (Or.inr (Or.inr (Or.inr (Or.inl (finish_word_suffix _ _)))))
         | exact Or.inr (Or.inr (Or.inr (Or.inr (Or.inr (Or.inl (finish_word_suffix _ _))))))
         | exact Or.inr (Or.inr (Or.inr (Or.inr (Or.inr (Or.inr (finish_word_suffix _ _)))))))

/-- Witness for the C9 theorem at a concrete input and prefix length. -/
theorem claim9_scan_total_witness :
    (scanPrefix ( "[1".data) 1).context_stack ≠ []
    ∧ (scanPrefix ( "[1".data) 1).context_stack.getLast? = some ContextType.topLevel
    ∧ scan ( "[1".data) = scanPrefix ( "[1".data) (( "[1".data).length) :=
  claim9_scan_total "[1" 1

/-- Witness for the C10 theorem at a concrete truncated input. -/
theorem claim10_output_shape_witness :
    ∃ kept frags, untruncate_json "[1,2," = String.mk (kept ++ List.flatten frags)
      ∧ kept <+: ( "[1,2,".data)
      ∧ ∀ f ∈ frags,
          f = ['"'] ∨ f = ['0'] ∨ f = [']'] ∨ f = ['\x7d']
          ∨ f <:+ ( "true".data) ∨ f <:+ ( "false".data) ∨ f <:+ ( "null".data) :=
  claim10_output_shape "[1,2,"

end JsonUntruncate
